import Mathlib

/-!
Verification of the MCP test-harness scripts of `mcp-lsp-bridge`
(`scripts/mcp_external_test.py`, `scripts/test_mcp_tools.py`,
`scripts/test_mcp_external.py`) against their natural-language design
specification.

The Python sources are shallowly embedded: Python values become the
`PyVal` inductive, Python dicts become ordered association lists with
insert-or-overwrite semantics, fallible code returns `Option`/`Except`,
and the subprocess I/O of one request round trip is abstracted into a
`ServerRead` oracle describing what the external server does on that
round trip.  All string processing is done on `List Char`, mirroring the
Python code character by character.
-/

set_option maxRecDepth 8192

namespace MCPBridge

/-- Python values as they occur in these scripts: JSON-style data plus
`None`.  Dicts are ordered key/value lists, as in Python 3.7+. -/
inductive PyVal where
  | none
  | bool (b : Bool)
  | int (n : Int)
  | str (s : String)
  | list (xs : List PyVal)
  | dict (kvs : List (String × PyVal))

/-- Python truthiness (`bool(v)`): `None`, `0`, `""`, `[]`, `{}` are falsy. -/
def pyTruthy : PyVal → Bool
  | .none => false
  | .bool b => b
  | .int n => n != 0
  | .str s => s.data != []
  | .list xs => !xs.isEmpty
  | .dict kvs => !kvs.isEmpty

/-- Python `str.isspace` characters (ASCII model). -/
def pyIsSpace (c : Char) : Bool :=
  c == ' ' || c == '\t' || c == '\n' || c == '\r' || c == '\x0b' || c == '\x0c'

/-- Drop trailing characters satisfying `p`. -/
def dropEndWhile (p : Char → Bool) (cs : List Char) : List Char :=
  (cs.reverse.dropWhile p).reverse

/-- Python `str.strip()` on a character list. -/
def pyStrip (cs : List Char) : List Char :=
  dropEndWhile pyIsSpace (cs.dropWhile pyIsSpace)

/-- Python `str.strip(chars)`: remove any of `chars` from both ends. -/
def pyStripChars (cs : List Char) (chars : List Char) : List Char :=
  dropEndWhile (chars.contains ·) (cs.dropWhile (chars.contains ·))

/-- Rebuild a `String` from characters. -/
def listStr (cs : List Char) : String := ⟨cs⟩

/-- Python `str.isdigit()` (ASCII model): nonempty and all digits. -/
def pyIsDigit (cs : List Char) : Bool :=
  !cs.isEmpty && cs.all Char.isDigit

/-- Value of a digit string, as computed by Python `int(...)` on an
`isdigit` string (necessarily non-negative). -/
def digitsVal (cs : List Char) : Nat :=
  cs.foldl (fun acc c => acc * 10 + (c.toNat - '0'.toNat)) 0

/-- `cs` starts with `pre` (Python `str.startswith`). -/
def strStarts : List Char → List Char → Bool
  | _, [] => true
  | [], _ :: _ => false
  | c :: cs, p :: ps => c == p && strStarts cs ps

/-- `cs` ends with `suf` (Python `str.endswith`). -/
def strEnds (cs suf : List Char) : Bool :=
  strStarts cs.reverse suf.reverse

/-- Python substring test (`pat in cs`). -/
def strContains : List Char → List Char → Bool
  | cs, pat =>
    match cs with
    | [] => pat.isEmpty
    | _ :: rest => strStarts cs pat || strContains rest pat

/-- Python slice `s[1:-1]`: drop the first and last character. -/
def sliceDropEnds (cs : List Char) : List Char :=
  (cs.drop 1).dropLast

/-- Insert into a Python dict modelled as an ordered association list:
an existing key keeps its position and gets the new value, a new key is
appended at the end (CPython 3.7+ semantics). -/
def dictInsert (kvs : List (String × PyVal)) (k : String) (v : PyVal) :
    List (String × PyVal) :=
  match kvs with
  | [] => [(k, v)]
  | (k', v') :: rest =>
    if k' == k then (k', v) :: rest else (k', v') :: dictInsert rest k v

/-- Dict lookup (`d[k]` / `k in d`), first match. -/
def dictFind : List (String × PyVal) → String → Option PyVal
  | [], _ => Option.none
  | (k', v) :: rest, k => if k' == k then some v else dictFind rest k

/-! ## `split_complex_params` (scripts/test_mcp_tools.py, lines 101-123)

The depth-tracking comma splitter of `parse_mcp_command`.  Note the
source increments `bracket_level` only when it is zero, so the tracked
level is capped at one and is not the true nesting depth. -/

/-- One opening bracket character of the splitter (`char in '[{('`). -/
def isOpenBr (c : Char) : Bool := c == '[' || c == '\x7b' || c == '('

/-- One closing bracket character of the splitter (`char in ']})'`). -/
def isCloseBr (c : Char) : Bool := c == ']' || c == '\x7d' || c == ')'

/-- The character loop of `split_complex_params`, with the loop state
(`params`, `current`, `bracket_level`) made explicit. -/
def scpGo : List Char → List String → List Char → Nat → List String
  | [], params, current, _ =>
    if current.isEmpty then params else params ++ [listStr (pyStrip current)]
  | c :: rest, params, current, level =>
    if isOpenBr c && level == 0 then
      scpGo rest params (current ++ [c]) (level + 1)
    else if isCloseBr c && level > 0 then
      if level - 1 == 0 then
        scpGo rest (params ++ [listStr (current ++ [c])]) [] 0
      else
        scpGo rest params (current ++ [c]) (level - 1)
    else if c == ',' && level == 0 then
      if current.isEmpty then scpGo rest params [] 0
      else scpGo rest (params ++ [listStr (pyStrip current)]) [] 0
    else
      scpGo rest params (current ++ [c]) level

/-- `split_complex_params(s)`: split a parameter-list string at commas,
tracking (a capped) bracket level. -/
def split_complex_params (s : String) : List String :=
  scpGo s.data [] [] 0

/-! ## A model of `ast.literal_eval` (Python standard library)

`parse_mcp_command` decodes each parameter value with
`ast.literal_eval`, falling back to a quote-stripped string when it
raises.  We model the stdlib function on the literal grammar these
scripts exercise: integers with optional sign, single- or double-quoted
strings with backslash escapes, `True`/`False`/`None`, and (string-keyed)
list/dict displays.  Forms outside this grammar (floats, tuples, sets,
concatenation, non-string dict keys) make the model fail, which lands in
the same fallback branch as a Python exception. -/

/-- Decode the body of a quoted string literal delimited by `q`,
returning the content and the remainder after the closing quote. -/
def levStr : Nat → Char → List Char → Option (List Char × List Char)
  | 0, _, _ => Option.none
  | _ + 1, _, [] => Option.none
  | fuel + 1, q, c :: rest =>
    if c == q then some ([], rest)
    else if c == '\\' then
      match rest with
      | [] => Option.none
      | e :: rest2 =>
        let dec : List Char :=
          if e == 'n' then ['\n'] else if e == 't' then ['\t']
          else if e == 'r' then ['\r'] else if e == '\\' then ['\\']
          else if e == '\'' then ['\''] else if e == '"' then ['"']
          else ['\\', e]
        (levStr fuel q rest2).map fun p => (dec ++ p.1, p.2)
    else (levStr fuel q rest).map fun p => (c :: p.1, p.2)

/-- Word characters of Python's `\w` (ASCII model). -/
def isWordChar (c : Char) : Bool := c.isAlphanum || c == '_'

/-- Match a keyword literal (`True`, `False`, `None`) not followed by a
word character. -/
def matchKw (cs : List Char) (kw : List Char) : Option (List Char) :=
  match strStarts cs kw with
  | true =>
    let rest := cs.drop kw.length
    match rest.head? with
    | some c => if isWordChar c then Option.none else some rest
    | Option.none => some rest
  | false => Option.none

mutual

/-- Parse one literal (after leading whitespace), returning the value
and the remainder. -/
def lev : Nat → List Char → Option (PyVal × List Char)
  | 0, _ => Option.none
  | fuel + 1, cs0 =>
    let cs := cs0.dropWhile pyIsSpace
    match matchKw cs "True".data with
    | some r => some (PyVal.bool true, r)
    | Option.none =>
    match matchKw cs "False".data with
    | some r => some (PyVal.bool false, r)
    | Option.none =>
    match matchKw cs "None".data with
    | some r => some (PyVal.none, r)
    | Option.none =>
    match cs with
    | [] => Option.none
    | c :: rest =>
      if c == '\'' || c == '"' then
        (levStr (rest.length + 1) c rest).map fun p => (PyVal.str (listStr p.1), p.2)
      else if c == '-' || c == '+' then
        let (ds, r) := (rest.takeWhile Char.isDigit, rest.dropWhile Char.isDigit)
        if ds.isEmpty then Option.none
        else some (PyVal.int (if c == '-' then -(digitsVal ds : Int) else (digitsVal ds : Int)), r)
      else if c.isDigit then
        let (ds, r) := (cs.takeWhile Char.isDigit, cs.dropWhile Char.isDigit)
        some (PyVal.int (digitsVal ds : Int), r)
      else if c == '[' then
        match levItems fuel rest with
        | some (xs, r) => some (PyVal.list xs, r)
        | Option.none => Option.none
      else if c == '\x7b' then
        match levPairs fuel rest with
        | some (kvs, r) => some (PyVal.dict kvs, r)
        | Option.none => Option.none
      else Option.none

/-- Parse the items of a list display up to and including `]`. -/
def levItems : Nat → List Char → Option (List PyVal × List Char)
  | 0, _ => Option.none
  | fuel + 1, cs0 =>
    let cs := cs0.dropWhile pyIsSpace
    match cs with
    | ']' :: r => some ([], r)
    | _ =>
      match lev fuel cs with
      | Option.none => Option.none
      | some (v, r1) =>
        let r2 := r1.dropWhile pyIsSpace
        match r2 with
        | ']' :: r3 => some ([v], r3)
        | ',' :: r3 =>
          match levItems fuel r3 with
          | some (xs, r4) => some (v :: xs, r4)
          | Option.none => Option.none
        | _ => Option.none

/-- Parse the pairs of a dict display up to and including the closing
brace; only string keys are in the model. -/
def levPairs : Nat → List Char → Option (List (String × PyVal) × List Char)
  | 0, _ => Option.none
  | fuel + 1, cs0 =>
    let cs := cs0.dropWhile pyIsSpace
    match cs with
    | '\x7d' :: r => some ([], r)
    | _ =>
      match lev fuel cs with
      | some (PyVal.str k, r1) =>
        match r1.dropWhile pyIsSpace with
        | ':' :: r2 =>
          match lev fuel r2 with
          | Option.none => Option.none
          | some (v, r3) =>
            match r3.dropWhile pyIsSpace with
            | '\x7d' :: r4 => some ([(k, v)], r4)
            | ',' :: r4 =>
              match levPairs fuel r4 with
              | some (kvs, r5) => some ((k, v) :: kvs, r5)
              | Option.none => Option.none
            | _ => Option.none
        | _ => Option.none
      | _ => Option.none

end

/-- The model of `ast.literal_eval(s)`: parse one literal and require
only whitespace to remain. -/
def ast_literal_eval (s : String) : Option PyVal :=
  match lev (s.data.length + 2) s.data with
  | some (v, rest) => if (rest.dropWhile pyIsSpace).isEmpty then some v else Option.none
  | Option.none => Option.none

/-! ## `parse_mcp_command` (scripts/test_mcp_tools.py, lines 68-144) -/

/-- Python `param.split('=', 1)`: split at the first `=`, or fail when
there is none (the `ValueError` of tuple unpacking). -/
def splitEq1 : List Char → Option (List Char × List Char)
  | [] => Option.none
  | c :: rest =>
    if c == '=' then some ([], rest)
    else (splitEq1 rest).map fun p => (c :: p.1, p.2)

/-- The parameter loop of `parse_mcp_command`.  The `try` in the source
wraps the whole `for`, so the first segment without an `=` aborts the
loop with a logged warning, returning the parameters collected so far;
it does NOT raise a parse error. -/
def parseParamsLoop : List String → List (String × PyVal) → List (String × PyVal)
  | [], acc => acc
  | seg :: rest, acc =>
    match splitEq1 seg.data with
    | Option.none => acc
    | some (k, v) =>
      let key := listStr (pyStrip k)
      let value := pyStrip v
      let pv :=
        match ast_literal_eval (listStr value) with
        | some x => x
        | Option.none => PyVal.str (listStr (pyStripChars value ['"', '\'']))
      parseParamsLoop rest (dictInsert acc key pv)

/-- Strip a literal from the front, or fail. -/
def dropLit : List Char → List Char → Option (List Char)
  | cs, [] => some cs
  | [], _ :: _ => Option.none
  | c :: cs, l :: ls => if c == l then dropLit cs ls else Option.none

/-- The colon suffix of the tool-name group `(?::[a-zA-Z0-9_]+)*`:
repeatedly consume `:` followed by a nonempty word run. -/
def eatColons : Nat → List Char → List Char → List Char × List Char
  | 0, acc, rest => (acc, rest)
  | fuel + 1, acc, rest =>
    match rest with
    | c :: r =>
      if c == ':' then
        if (r.takeWhile isWordChar).isEmpty then (acc, rest)
        else eatColons fuel (acc ++ c :: r.takeWhile isWordChar) (r.dropWhile isWordChar)
      else (acc, rest)
    | [] => (acc, rest)

/-- The tail `\((.*)\)$` of the command regex: an opening parenthesis,
then everything up to a closing parenthesis that ends the string, the
captured group containing no newline. -/
def attemptTail (cs : List Char) : Option (List Char) :=
  match cs with
  | c :: rest =>
    if c == '(' then
      if rest.isEmpty then Option.none
      else if rest.getLast? == some ')' && !(rest.dropLast.contains '\n') then
        some rest.dropLast
      else Option.none
    else Option.none
  | [] => Option.none

/-- The optional decorative marker `(?:●\s*)?` of the command regex. -/
def markerDrop (cs : List Char) : List Char :=
  match cs with
  | c :: r => if c == '●' then r.dropWhile pyIsSpace else cs
  | [] => cs

/-- Remainder after the tool-name group and the following `\s*`. -/
def afterName (cs1 : List Char) : List Char :=
  ((eatColons (cs1.dropWhile isWordChar).length []
      (cs1.dropWhile isWordChar)).2).dropWhile pyIsSpace

/-- The captured tool-name group. -/
def toolNameOf (cs1 : List Char) : List Char :=
  cs1.takeWhile isWordChar ++
    (eatColons (cs1.dropWhile isWordChar).length []
      (cs1.dropWhile isWordChar)).1

/-- The command regex of `parse_mcp_command`:
`^(?:●\s*)?([a-zA-Z0-9_]+(?::[a-zA-Z0-9_]+)*)\s*(?:\(MCP\))?\s*\((.*)\)$`
applied to the stripped command string, returning the tool-name group
and the parameter-list group.  The optional `(MCP)` is consumed
greedily, with the regex engine's fallback to not consuming it when the
tail then fails. -/
def matchToolGrammar (cs : List Char) : Option (List Char × List Char) :=
  if ((markerDrop cs).takeWhile isWordChar).isEmpty then Option.none
  else
    let name := toolNameOf (markerDrop cs)
    let r3 := afterName (markerDrop cs)
    match dropLit r3 "(MCP)".data with
    | some r4 =>
      match attemptTail (r4.dropWhile pyIsSpace) with
      | some g => some (name, g)
      | Option.none =>
        match attemptTail r3 with
        | some g => some (name, g)
        | Option.none => Option.none
    | Option.none =>
      match attemptTail r3 with
      | some g => some (name, g)
      | Option.none => Option.none

/-- Parse failure of `parse_mcp_command`: the `ValueError` carrying the
(stripped) command text. -/
inductive MCPParseErr where
  | invalidFormat (text : String)
deriving DecidableEq

/-- `parse_mcp_command(command_str)`: strip, match the invocation
grammar (raising `ValueError` with the text on mismatch), then split the
parameter list with `split_complex_params` and decode each segment. -/
def parse_mcp_command (command_str : String) :
    Except MCPParseErr (String × List (String × PyVal)) :=
  let cs := pyStrip command_str.data
  match matchToolGrammar cs with
  | Option.none => .error (.invalidFormat (listStr cs))
  | some (tool, paramsStr) =>
    let params :=
      if paramsStr.isEmpty then []
      else parseParamsLoop (split_complex_params (listStr paramsStr)) []
    .ok (listStr tool, params)

/-! ## `parse_command` (scripts/mcp_external_test.py, lines 171-222)

The other, independently evolved parser.  Parameters are found with
`re.findall(r'(\w+):\s*("(?:\\.|[^"])*"|\$\x7b[^\x7d]+\x7d|[0-9]+)', params_str)`:
a word key, a colon, whitespace, then a double-quoted string, a
`$\x7bname\x7d` token, or a digit run.  Variable references are rewritten to
the placeholder string `<VAR:name>` for `interpolate_variables`. -/

/-- Match the body of the regex piece `(?:\\.|[^"])*"` after an opening
double quote: consume characters (a backslash prefers to escape the
following character, backtracking to stand alone if needed) up to and
including the closing quote. -/
def qtail : Nat → List Char → Option (List Char × List Char)
  | 0, _ => Option.none
  | _ + 1, [] => Option.none
  | fuel + 1, c :: rest =>
    if c == '"' then some (['"'], rest)
    else if c == '\\' then
      match rest with
      | [] => Option.none
      | e :: rest2 =>
        match qtail fuel rest2 with
        | some p => some ('\\' :: e :: p.1, p.2)
        | Option.none =>
          match qtail fuel (e :: rest2) with
          | some p => some ('\\' :: p.1, p.2)
          | Option.none => Option.none
    else
      (qtail fuel rest).map fun p => (c :: p.1, p.2)

/-- The quoted-string alternative `"(?:\\.|[^"])*"` (match includes the
quotes). -/
def tryQuoted (cs : List Char) : Option (List Char × List Char) :=
  match cs with
  | c :: rest =>
    if c == '"' then (qtail (rest.length + 1) rest).map fun p => ('"' :: p.1, p.2)
    else Option.none
  | [] => Option.none

/-- The variable-token alternative `\$\x7b[^\x7d]+\x7d`. -/
def tryVarTok (cs : List Char) : Option (List Char × List Char) :=
  match cs with
  | a :: b :: rest =>
    if a == '$' && b == '\x7b' then
      let inner := rest.takeWhile (fun c => c != '\x7d')
      if inner.isEmpty then Option.none
      else
        match rest.dropWhile (fun c => c != '\x7d') with
        | c :: r2 =>
          if c == '\x7d' then some ('$' :: '\x7b' :: (inner ++ ['\x7d']), r2)
          else Option.none
        | [] => Option.none
    else Option.none
  | _ => Option.none

/-- The digit-run alternative `[0-9]+`. -/
def tryDigits (cs : List Char) : Option (List Char × List Char) :=
  let ds := cs.takeWhile Char.isDigit
  if ds.isEmpty then Option.none else some (ds, cs.dropWhile Char.isDigit)

/-- One attempted match of the parameter regex at the current position:
word key, `:`, whitespace, then the three value alternatives in the
source's order. -/
def tryMatchParam (cs : List Char) : Option (String × String × List Char) :=
  let k := cs.takeWhile isWordChar
  if k.isEmpty then Option.none
  else
    match cs.dropWhile isWordChar with
    | c :: r1 =>
      if c == ':' then
        let r2 := r1.dropWhile pyIsSpace
        match tryQuoted r2 with
        | some p => some (listStr k, listStr p.1, p.2)
        | Option.none =>
          match tryVarTok r2 with
          | some p => some (listStr k, listStr p.1, p.2)
          | Option.none =>
            match tryDigits r2 with
            | some p => some (listStr k, listStr p.1, p.2)
            | Option.none => Option.none
      else Option.none
    | [] => Option.none

/-- `re.findall` scanning: try a match at each position, skipping one
character on failure and continuing after the match on success. -/
def findParams : Nat → List Char → List (String × String)
  | 0, _ => []
  | fuel + 1, cs =>
    match cs with
    | [] => []
    | _ :: rest =>
      match tryMatchParam cs with
      | some kvr => (kvr.1, kvr.2.1) :: findParams fuel kvr.2.2
      | Option.none => findParams fuel rest

/-- Python `value.replace('""', '"')`: left-to-right, non-overlapping. -/
def replDq : List Char → List Char
  | a :: b :: rest =>
    if a == '"' && b == '"' then '"' :: replDq rest
    else a :: replDq (b :: rest)
  | cs => cs

/-- The placeholder `f"<VAR:{var_name}>"` with `var_name = value[2:-1]`. -/
def varPlaceholder (cs : List Char) : List Char :=
  "<VAR:".data ++ ((cs.drop 2).dropLast ++ ['>'])

/-- The per-match value decoding of `parse_command`: strip surrounding
double quotes; an all-digit token becomes `int`; a remaining string of
the form `$\x7bname\x7d` becomes the `<VAR:name>` placeholder; values for the
key `workspace_uri` are additionally passed through
`str(value).replace('""', '"').strip('"')`. -/
def decode_param (key : String) (raw : String) : PyVal :=
  let v0 := raw.data
  let v1 := if strStarts v0 ['"'] && strEnds v0 ['"'] then sliceDropEnds v0 else v0
  if pyIsDigit v1 then
    if key == "workspace_uri" then
      PyVal.str (listStr (pyStripChars (replDq (Nat.repr (digitsVal v1)).data) ['"']))
    else PyVal.int (digitsVal v1)
  else
    let v2 := if strStarts v1 ['$', '\x7b'] && strEnds v1 ['\x7d'] then varPlaceholder v1 else v1
    if key == "workspace_uri" then
      PyVal.str (listStr (pyStripChars (replDq v2) ['"']))
    else PyVal.str (listStr v2)

/-- The grammar regex of `parse_command`:
`re.match(r'lsp:(\w+)\s*\(MCP\)\((.+)\)', s)` — anchored at the start
only; the greedy `(.+)` captures up to the last `)` of the (newline-free
part of the) remainder and must be nonempty. -/
def lspGrammarMatch (cs : List Char) : Option (List Char × List Char) :=
  match dropLit cs "lsp:".data with
  | Option.none => Option.none
  | some r0 =>
    let name := r0.takeWhile isWordChar
    if name.isEmpty then Option.none
    else
      let r1 := (r0.dropWhile isWordChar).dropWhile pyIsSpace
      match dropLit r1 "(MCP)".data with
      | Option.none => Option.none
      | some r2 =>
        match r2 with
        | c :: rest =>
          if c == '(' then
            let seg := rest.takeWhile (fun ch => ch != '\n')
            match seg.reverse.dropWhile (fun ch => ch != ')') with
            | p :: contentRev =>
              if p == ')' && !contentRev.isEmpty then some (name, contentRev.reverse)
              else Option.none
            | [] => Option.none
          else Option.none
        | [] => Option.none

/-- `parse_command(command_string)`: remove every `●`, strip, match the
`lsp:` grammar, scan parameters with the findall regex and decode them;
`None` (here `Option.none`) on grammar mismatch or when no parameter
matched (`raise ValueError("No valid parameters found")`, caught). -/
def parse_command (command_string : String) :
    Option (String × List (String × PyVal)) :=
  let cs := pyStrip (command_string.data.filter (fun c => c != '●'))
  match lspGrammarMatch cs with
  | Option.none => Option.none
  | some (tool, paramsStr) =>
    let pairs := findParams paramsStr.length paramsStr
    let params := pairs.foldl (fun acc kv => dictInsert acc kv.1 (decode_param kv.1 kv.2)) []
    if params.isEmpty then Option.none else some (listStr tool, params)

/-! ## `CommandContext` and `interpolate_variables`
(scripts/mcp_external_test.py, lines 165-169 and 224-246) -/

/-- The shared execution context of one sequence run.  `last_result`
starts as Python `None`; the field `vars` models the attribute named
`variables` in the source (caller-supplied named values); Lean reserves
that identifier. -/
structure CommandContext where
  last_result : PyVal := PyVal.none
  vars : List (String × PyVal) := []

/-- The two `ValueError`s `interpolate_variables` can raise. -/
inductive InterpErr where
  | noPreviousResult (name : String)
  | undefinedVariable (name : String)
deriving DecidableEq

/-- `str(e)` for the two errors, as embedded into failing results. -/
def interpErrMsg : InterpErr → String
  | .noPreviousResult n => "No previous result available for variable " ++ n
  | .undefinedVariable n => "Undefined variable " ++ n

/-- The check `isinstance(value, str) and value.startswith('<VAR:') and
value.endswith('>')`. -/
def isVarPlaceholder (s : String) : Bool :=
  strStarts s.data "<VAR:".data && strEnds s.data ['>']

/-- `var_name = value[5:-1]`. -/
def varNameOf (s : String) : String := listStr ((s.data.drop 5).dropLast)

/-- The item loop of `interpolate_variables`, building the new mapping
`interpolated_params`; the first failing reference raises. -/
def interpGo (ctx : CommandContext) :
    List (String × PyVal) → List (String × PyVal) →
      Except InterpErr (List (String × PyVal))
  | [], acc => .ok acc
  | (k, v) :: rest, acc =>
    match v with
    | PyVal.str s =>
      if isVarPlaceholder s then
        if varNameOf s == "last_result" then
          if pyTruthy ctx.last_result then
            interpGo ctx rest (dictInsert acc k ctx.last_result)
          else .error (.noPreviousResult (varNameOf s))
        else
          match dictFind ctx.vars (varNameOf s) with
          | some w => interpGo ctx rest (dictInsert acc k w)
          | Option.none => .error (.undefinedVariable (varNameOf s))
      else interpGo ctx rest (dictInsert acc k v)
    | _ => interpGo ctx rest (dictInsert acc k v)

/-- `interpolate_variables(params, context)`: a new mapping with each
top-level `<VAR:...>` placeholder resolved against the context. -/
def interpolate_variables (params : List (String × PyVal)) (ctx : CommandContext) :
    Except InterpErr (List (String × PyVal)) :=
  interpGo ctx params []

/-! ## The request/response round trip

`_send_request` (scripts/mcp_external_test.py, lines 134-156) performs a
blocking `readline` with no timeout; `send_request`
(scripts/test_mcp_external.py, lines 133-189) polls with
`select.select(..., 10.0)` before reading.  What the external server
process does on one round trip is abstracted into `ServerRead`. -/

/-- The behaviour of the spawned server on one request round trip:
stays silent forever, makes the stream write fail (process died), yields
an empty line (EOF/blank), yields an undecodable line, or yields a line
that decodes to the JSON value `v`. -/
inductive ServerRead where
  | silent
  | writeFail (msg : String)
  | closedOrBlank
  | badJson (msg : String)
  | json (v : PyVal)

/-- Python type names, for `TypeError` messages. -/
def pyTypeName : PyVal → String
  | .none => "NoneType"
  | .bool _ => "bool"
  | .int _ => "int"
  | .str _ => "str"
  | .list _ => "list"
  | .dict _ => "dict"

/-- Python `"error" in result`: key test for dicts, membership for
lists, substring for strings, `TypeError` otherwise. -/
def pyInError : PyVal → Except String Bool
  | .dict kvs => .ok (kvs.any fun kv => kv.1 == "error")
  | .list xs =>
    .ok (xs.any fun x => match x with | .str s => s == "error" | _ => false)
  | .str s => .ok (strContains s.data "error".data)
  | v => .error ("argument of type '" ++ pyTypeName v ++ "' is not iterable")

/-- `_send_request(method, params)` of `MCPExternalTestRunner`: build
the envelope with the current `request_id`, increment the counter, write
the line and do an unbounded blocking `readline`.  Returns the request
envelope, the outcome (`Option.none` models the blocking read never
returning on a silent server), and the new counter.  Any exception in
the `try` is caught and returned as `{"error": str(e)}`. -/
def sendRequestMCP (read : ServerRead) (serverUp startOk : Bool)
    (method : String) (params : PyVal) (rid : Nat) : PyVal × Option PyVal × Nat :=
  let req := PyVal.dict [("jsonrpc", PyVal.str "2.0"), ("id", PyVal.int rid),
    ("method", PyVal.str method), ("params", params)]
  let resp : Option PyVal :=
    if !(serverUp || startOk) then
      some (PyVal.dict [("error", PyVal.str "'NoneType' object has no attribute 'stdin'")])
    else
      match read with
      | .silent => Option.none
      | .writeFail m => some (PyVal.dict [("error", PyVal.str m)])
      | .closedOrBlank =>
        some (PyVal.dict [("error", PyVal.str "Expecting value: line 1 column 1 (char 0)")])
      | .badJson m => some (PyVal.dict [("error", PyVal.str m)])
      | .json v => some v
  (req, resp, rid + 1)

/-! ## `run_test` and `run_test_sequence`
(scripts/mcp_external_test.py, lines 248-301) -/

/-- The fixed environment of a run: whether `_start_server` succeeds,
and what the server does on the round trip with each request id. -/
structure Env where
  startOk : Bool
  respond : Nat → ServerRead

/-- The mutable state of `MCPExternalTestRunner`: the id counter
(initially 1) and whether `server_process` is set. -/
structure RunnerState where
  request_id : Nat := 1
  serverUp : Bool := false
deriving DecidableEq

/-- `result['success']` as used by the sequence loop (every result the
code builds carries the key; a missing key would be a `KeyError`). -/
def resultSuccess (r : PyVal) : Bool :=
  match r with
  | PyVal.dict kvs =>
    match dictFind kvs "success" with
    | some v => pyTruthy v
    | Option.none => false
  | _ => false

/-- `run_test(command_string, context)`: parse, start the server if
needed, interpolate, dispatch `tools/call`, classify the response.
Returns the result dict, the updated context and runner state;
`Option.none` models the run hanging forever inside the blocking read.
`context.last_result` is assigned only on the success path, after the
`"error" in result` check. -/
def run_test (env : Env) (cmd : String) (ctx : CommandContext) (st : RunnerState) :
    Option (PyVal × CommandContext × RunnerState) :=
  match parse_command cmd with
  | Option.none =>
    some (PyVal.dict [("success", PyVal.bool false),
      ("error", PyVal.str "Invalid command format")], ctx, st)
  | some parsed =>
    if !st.serverUp && !env.startOk then
      some (PyVal.dict [("success", PyVal.bool false),
        ("error", PyVal.str "Failed to start MCP server")], ctx, st)
    else
      let st1 : RunnerState := { st with serverUp := true }
      match interpolate_variables parsed.2 ctx with
      | .error e =>
        some (PyVal.dict [("success", PyVal.bool false),
          ("error", PyVal.str (interpErrMsg e))], ctx, st1)
      | .ok iparams =>
        let step := sendRequestMCP (env.respond st1.request_id) true env.startOk
          "tools/call"
          (PyVal.dict [("name", PyVal.str parsed.1), ("arguments", PyVal.dict iparams)])
          st1.request_id
        match step.2.1 with
        | Option.none => Option.none
        | some result =>
          let st2 : RunnerState := { st1 with request_id := step.2.2 }
          match pyInError result with
          | .error m =>
            some (PyVal.dict [("success", PyVal.bool false),
              ("error", PyVal.str m)], ctx, st2)
          | .ok true =>
            some (PyVal.dict [("success", PyVal.bool false),
              ("result", result)], ctx, st2)
          | .ok false =>
            some (PyVal.dict [("success", PyVal.bool true),
              ("result", result)], { ctx with last_result := result }, st2)

/-- The loop of `run_test_sequence`: run each command against the shared
context, append its result, and break after the first unsuccessful
result. -/
def run_test_sequence (env : Env) :
    List String → CommandContext → RunnerState →
      Option (List PyVal × CommandContext × RunnerState)
  | [], ctx, st => some ([], ctx, st)
  | c :: cs, ctx, st =>
    match run_test env c ctx st with
    | Option.none => Option.none
    | some (r, ctx', st') =>
      if resultSuccess r then
        match run_test_sequence env cs ctx' st' with
        | Option.none => Option.none
        | some (rs, ctx'', st'') => some (r :: rs, ctx'', st'')
      else some ([r], ctx', st')

/-- `run_test_sequence(command_sequence)` as called from `main`: a fresh
context and a fresh runner state (id counter 1, no server yet). -/
def run_sequence (env : Env) (cmds : List String) :
    Option (List PyVal × CommandContext × RunnerState) :=
  run_test_sequence env cmds {} {}

/-! ## `send_request` (scripts/test_mcp_external.py, lines 133-189)

This client polls with `select.select([stdout], [], [], 10.0)` before
reading, so a silent server produces a timeout failure instead of a
hang. -/

mutual

/-- Python `str()`/`repr()` of a value, as interpolated into error
messages (escaping inside string reprs is elided; the scripts only
format plain text). -/
def pyRepr : PyVal → String
  | .none => "None"
  | .bool b => if b then "True" else "False"
  | .int n => toString n
  | .str s => "'" ++ s ++ "'"
  | .list xs => "[" ++ pyReprItems xs ++ "]"
  | .dict kvs => "\x7b" ++ pyReprPairs kvs ++ "\x7d"

def pyReprItems : List PyVal → String
  | [] => ""
  | [x] => pyRepr x
  | x :: xs => pyRepr x ++ ", " ++ pyReprItems xs

def pyReprPairs : List (String × PyVal) → String
  | [] => ""
  | [(k, v)] => "'" ++ k ++ "': " ++ pyRepr v
  | (k, v) :: kvs => "'" ++ k ++ "': " ++ pyRepr v ++ ", " ++ pyReprPairs kvs

end

/-- The `TestResult` record of `test_mcp_external.py`, restricted to the
fields the round trip assigns. -/
structure TestResultM where
  success : Bool
  error : Option String
  response : Option PyVal

/-- `send_request(method, params)` of `MCPExternalTester`: assign and
increment the id, check the process is running, write the request, then
`select.select(..., 10.0)` and `readline`.  Every failure is caught into
the returned `TestResult`; a silent server yields the timeout error
after the bounded wait — the call always returns.  Returns the request
envelope, the `TestResult`, and the new counter. -/
def send_request_ext (running : Bool) (read : ServerRead)
    (method : String) (params : PyVal) (rid : Nat) : PyVal × TestResultM × Nat :=
  let req := PyVal.dict [("jsonrpc", PyVal.str "2.0"), ("id", PyVal.int rid),
    ("method", PyVal.str method), ("params", params)]
  let rid' := rid + 1
  let res : TestResultM :=
    if !running then
      { success := false, error := some "Server process is not running",
        response := Option.none }
    else
      match read with
      | .writeFail m => { success := false, error := some m, response := Option.none }
      | .silent =>
        { success := false, error := some "Request timed out - no response received",
          response := Option.none }
      | .closedOrBlank =>
        { success := false, error := some "Empty response received",
          response := Option.none }
      | .badJson m => { success := false, error := some m, response := Option.none }
      | .json v =>
        match pyInError v with
        | .error m => { success := false, error := some m, response := some v }
        | .ok true =>
          let msg :=
            match v with
            | PyVal.dict kvs =>
              match dictFind kvs "error" with
              | some e => "Server returned error: " ++ pyRepr e
              | Option.none => "Server returned error: "
            | PyVal.list _ => "list indices must be integers or slices, not str"
            | _ => "string indices must be integers"
          { success := false, error := some msg, response := some v }
        | .ok false => { success := true, error := Option.none, response := some v }
  (req, res, rid')

/-! ## Request-id bookkeeping (claim C4)

`MCPExternalTestRunner.__init__` sets `self.request_id = 1`;
`_send_request` uses the current value in the envelope and increments it
by one, unconditionally, and nothing else ever writes the counter.
`MCPToolRunner.run_mcp_tool` (scripts/test_mcp_tools.py, lines 146-159)
instead assigns `request_id = str(uuid.uuid4())` — a random string. -/

/-- The `id` field of a request envelope. -/
def envelopeId (req : PyVal) : Option PyVal :=
  match req with
  | PyVal.dict kvs => dictFind kvs "id"
  | _ => Option.none

/-- The envelope ids produced by consecutive `_send_request` round
trips starting from counter value `rid` (see `sendRequestMCP`: the
envelope carries the current counter and the counter advances to the
returned value). -/
def sessionIds : List ServerRead → Nat → List Nat
  | [], _ => []
  | r :: rs, rid =>
    rid :: sessionIds rs (sendRequestMCP r true true "tools/call" (PyVal.dict []) rid).2.2

/-- The JSON-RPC request built by `run_mcp_tool` of
`scripts/test_mcp_tools.py`: its `id` is `str(uuid.uuid4())`, passed
here as the `request_id` argument since the drawn UUID is an input of
the model. -/
def run_mcp_tool_request (request_id : String) (tool_name : String)
    (params : PyVal) : PyVal :=
  PyVal.dict [("jsonrpc", PyVal.str "2.0"), ("method", PyVal.str "tools/call"),
    ("params", PyVal.dict [("name", PyVal.str tool_name), ("arguments", params)]),
    ("id", PyVal.str request_id)]

/-- A value is a top-level variable-reference placeholder (the only
shape `interpolate_variables` ever rewrites). -/
def isVarRefValue : PyVal → Bool
  | PyVal.str s => isVarPlaceholder s
  | _ => false

/-- The `result` entry of a result dict (the payload `run_test` stores
into `context.last_result`). -/
def resultPayload : PyVal → Option PyVal
  | PyVal.dict kvs => dictFind kvs "result"
  | _ => Option.none

/-! # Theorems -/

/-- At bracket level 0, characters that are neither opening brackets nor
commas are simply accumulated into `current`. -/
theorem scpGo_accum_level0 (p : List Char)
    (hp : ∀ c ∈ p, isOpenBr c = false ∧ c ≠ ',') :
    ∀ cs params current,
      scpGo (p ++ cs) params current 0 = scpGo cs params (current ++ p) 0 := by
  induction p with
  | nil => intro cs params current; simp
  | cons c p ih =>
    intro cs params current
    obtain ⟨hopen, hcomma⟩ := hp c (List.mem_cons_self c p)
    have hp' : ∀ c ∈ p, isOpenBr c = false ∧ c ≠ ',' :=
      fun c hc => hp c (List.mem_cons_of_mem _ hc)
    have hc2 : (c == ',') = false := by
      simp [hcomma]
    simp only [List.cons_append, scpGo, List.append_eq]
    rw [if_neg (by simp [hopen]), if_neg (by simp), if_neg (by simp [hc2])]
    rw [ih hp' cs params (current ++ [c])]
    simp

/-- At bracket level 1, characters that are not closing brackets are
simply accumulated into `current`. -/
theorem scpGo_accum_level1 (p : List Char)
    (hp : ∀ c ∈ p, isCloseBr c = false) :
    ∀ cs params current,
      scpGo (p ++ cs) params current 1 = scpGo cs params (current ++ p) 1 := by
  induction p with
  | nil => intro cs params current; simp
  | cons c p ih =>
    intro cs params current
    have hclose := hp c (List.mem_cons_self c p)
    have hp' : ∀ c ∈ p, isCloseBr c = false :=
      fun c hc => hp c (List.mem_cons_of_mem _ hc)
    simp only [List.cons_append, scpGo, List.append_eq]
    rw [if_neg (by simp), if_neg (by simp [hclose]), if_neg (by simp)]
    rw [ih hp' cs params (current ++ [c])]
    simp

/-- C1 (amended): in `split_complex_params`, a comma splits only when the
tracked bracket level is zero, and a FLAT (un-nested) bracket-delimited
literal with internal commas is kept together as one `key=value`
segment: for a segment `p ++ "[" ++ inn ++ "]"` whose prefix `p` has no
opening bracket and no comma and whose literal body `inn` has no closing
bracket, the whole string comes back as a single segment.  (The claim's
stronger statement including nested literals is false: the tracked level
is capped at one, see the counterexample.) -/
theorem split_complex_params_flat_literal_kept (p inn : List Char)
    (hp : ∀ c ∈ p, isOpenBr c = false ∧ c ≠ ',')
    (hinn : ∀ c ∈ inn, isCloseBr c = false) :
    split_complex_params (listStr (p ++ '[' :: (inn ++ [']']))) =
      [listStr (p ++ '[' :: (inn ++ [']']))] := by
  show scpGo (p ++ '[' :: (inn ++ [']'])) [] [] 0 = _
  rw [scpGo_accum_level0 p hp]
  show scpGo ('[' :: (inn ++ [']'])) [] p 0 = _
  rw [show scpGo ('[' :: (inn ++ [']'])) [] p 0 =
        scpGo (inn ++ [']']) [] (p ++ ['[']) 1 by simp [scpGo, isOpenBr]]
  rw [scpGo_accum_level1 inn hinn]
  simp [scpGo, isCloseBr, listStr]

/-- C1 (counterexample): a nested list literal with internal commas IS
split apart by `split_complex_params`, because the inner closing bracket
already brings the (capped) bracket level back to zero.  The spec
requires the whole of `a=[[1,2],[3,4]]` to stay one segment; the code
produces three segments. -/
theorem split_complex_params_nested_literal_split :
    split_complex_params "a=[[1,2],[3,4]]" = ["a=[[1,2]", "[3,4]", "]"] ∧
      split_complex_params "a=[[1,2],[3,4]]" ≠ ["a=[[1,2],[3,4]]"] := by
  constructor
  · rfl
  · decide

/-- Witness for `split_complex_params_flat_literal_kept` at the concrete
flat literal `a=[1,2]`. -/
theorem split_complex_params_flat_literal_kept_witness :
    split_complex_params "a=[1,2]" = ["a=[1,2]"] :=
  split_complex_params_flat_literal_kept "a=".data "1,2".data
    (by decide) (by decide)

theorem dropEndWhile_sublist (p : Char → Bool) (cs : List Char) :
    List.Sublist (dropEndWhile p cs) cs := by
  have h : List.Sublist (cs.reverse.dropWhile p) cs.reverse :=
    List.dropWhile_sublist p
  have h2 := h.reverse
  simpa [dropEndWhile] using h2

theorem pyStrip_sublist (cs : List Char) :
    List.Sublist (pyStrip cs) cs :=
  (dropEndWhile_sublist _ _).trans (List.dropWhile_sublist _)

theorem eatColons_snd_sublist :
    ∀ (fuel : Nat) (acc rest : List Char),
      List.Sublist (eatColons fuel acc rest).2 rest := by
  intro fuel
  induction fuel with
  | zero => intro acc rest; exact List.Sublist.refl _
  | succ f ih =>
    intro acc rest
    cases rest with
    | nil => exact List.Sublist.refl _
    | cons c r =>
      simp only [eatColons]
      split
      · split
        · exact List.Sublist.refl _
        · exact ((ih _ _).trans (List.dropWhile_sublist _)).trans
            (List.sublist_cons_self _ _)
      · exact List.Sublist.refl _

theorem markerDrop_sublist (cs : List Char) :
    List.Sublist (markerDrop cs) cs := by
  cases cs with
  | nil => exact List.Sublist.refl _
  | cons c r =>
    simp only [markerDrop]
    split
    · exact (List.dropWhile_sublist _).trans (List.sublist_cons_self _ _)
    · exact List.Sublist.refl _

theorem afterName_sublist (cs1 : List Char) :
    List.Sublist (afterName cs1) cs1 := by
  unfold afterName
  exact ((List.dropWhile_sublist _).trans (eatColons_snd_sublist _ _ _)).trans
    (List.dropWhile_sublist _)

theorem attemptTail_no_paren (cs : List Char) (h : '(' ∉ cs) :
    attemptTail cs = Option.none := by
  cases cs with
  | nil => rfl
  | cons c r =>
    have hc : (c == '(') = false := by
      simp only [List.mem_cons, not_or] at h
      exact beq_eq_false_iff_ne.mpr fun hh => h.1 hh.symm
    simp [attemptTail, hc]

theorem dropLit_mcp_no_paren (cs : List Char) (h : '(' ∉ cs) :
    dropLit cs "(MCP)".data = Option.none := by
  cases cs with
  | nil => rfl
  | cons c r =>
    have hc : (c == '(') = false := by
      simp only [List.mem_cons, not_or] at h
      exact beq_eq_false_iff_ne.mpr fun hh => h.1 hh.symm
    show dropLit (c :: r) ('(' :: "MCP)".data) = Option.none
    simp [dropLit, hc]

theorem matchToolGrammar_no_paren (cs : List Char) (h : '(' ∉ cs) :
    matchToolGrammar cs = Option.none := by
  have hr3 : '(' ∉ afterName (markerDrop cs) := fun hx =>
    h (((afterName_sublist _).trans (markerDrop_sublist _)).mem hx)
  simp only [matchToolGrammar,
    dropLit_mcp_no_paren _ hr3, attemptTail_no_paren _ hr3]
  split <;> rfl

theorem splitEq1_none (cs : List Char) (h : '=' ∉ cs) :
    splitEq1 cs = Option.none := by
  induction cs with
  | nil => rfl
  | cons c r ih =>
    simp only [List.mem_cons, not_or] at h
    have hc : (c == '=') = false := beq_eq_false_iff_ne.mpr fun hh => h.1 hh.symm
    simp [splitEq1, hc, ih h.2]

/-- C9 (amended): a line that does not match the invocation grammar at
all fails with a `ParseError` carrying the (stripped) original text —
shown here for every line without a `(`, which can never match — BUT a
parameter segment that cannot be split into key and value does NOT
produce a `ParseError`: the parameter loop silently stops at the first
such segment (a logged warning in the source) and the line parses
successfully with exactly the parameters collected before it, all later
segments dropped. -/
theorem parse_mcp_command_error_behavior :
    (∀ s : String, '(' ∉ s.data →
        parse_mcp_command s = .error (.invalidFormat (listStr (pyStrip s.data)))) ∧
      (∀ (segs1 : List String) (bad : String) (segs2 : List String)
          (acc : List (String × PyVal)), '=' ∉ bad.data →
        parseParamsLoop (segs1 ++ bad :: segs2) acc = parseParamsLoop segs1 acc) := by
  constructor
  · intro s hs
    have hstrip : '(' ∉ pyStrip s.data := fun hx => hs ((pyStrip_sublist _).mem hx)
    simp [parse_mcp_command, matchToolGrammar_no_paren _ hstrip]
  · intro segs1 bad segs2 acc hbad
    induction segs1 generalizing acc with
    | nil => simp [parseParamsLoop, splitEq1_none _ hbad]
    | cons s rest ih =>
      simp only [List.cons_append, parseParamsLoop]
      cases splitEq1 s.data with
      | none => rfl
      | some kv => exact ih _

/-- C9 (counterexample): the segment `bad` of this line cannot be split
into `key=value`, yet parsing does not fail — it returns the tool name
with only the parameters before the offending segment (`line=2` is
dropped too). -/
theorem parse_mcp_command_bad_segment_no_error :
    parse_mcp_command "lsp:hover(uri=1, bad, line=2)" =
      .ok ("lsp:hover", [("uri", PyVal.int 1)]) := rfl

/-- Witness for `parse_mcp_command_error_behavior`: a concrete
grammar-mismatching line and a concrete unsplittable segment. -/
theorem parse_mcp_command_error_behavior_witness :
    parse_mcp_command "foo bar" = .error (.invalidFormat "foo bar") ∧
      parseParamsLoop ["a=1", "bad", "c=2"] [] = parseParamsLoop ["a=1"] [] :=
  ⟨parse_mcp_command_error_behavior.1 "foo bar" (by decide),
    parse_mcp_command_error_behavior.2 ["a=1"] "bad" ["c=2"] [] (by decide)⟩

/-- C5 (amended): in `parse_command`, a value in matching DOUBLE quotes
has its quotes stripped and then becomes a `String` only if the quoted
content is not a pure digit run (digit runs are coerced to `Integer` by
the `isdigit` check that runs after quote stripping) and is not itself a
`$\x7bname\x7d` token, and the key is not the specially munged
`workspace_uri`.  Single-quoted values are not recognized by the
parameter regex at all: the whole line fails to parse when only
single-quoted parameters are present. -/
theorem decode_param_quoted_value (key raw content : String)
    (hraw : raw.data = '"' :: (content.data ++ ['"']))
    (hkey : (key == "workspace_uri") = false)
    (hdig : pyIsDigit content.data = false)
    (hvar : (strStarts content.data ['$', '\x7b'] && strEnds content.data ['\x7d']) = false) :
    decode_param key raw = PyVal.str content ∧
      parse_command "lsp:hover (MCP)(line: '10')" = Option.none := by
  refine ⟨?_, rfl⟩
  have hslice : sliceDropEnds ('"' :: (content.data ++ ['"'])) = content.data := by
    simp [sliceDropEnds]
  have hq : (strStarts ('"' :: (content.data ++ ['"'])) ['"'] &&
      strEnds ('"' :: (content.data ++ ['"'])) ['"']) = true := by
    simp [strStarts, strEnds]
  simp only [decode_param, hraw, hq, if_true, hslice, hdig, hvar, hkey]
  rfl

/-- C5 (counterexample): the spec requires every quoted value to parse
as a `String`, in particular quoted digits; `parse_command` instead
strips the quotes and then coerces the digit run to an `Integer`:
`line: "10"` parses to the integer 10, not the string "10". -/
theorem parse_command_quoted_digits_integer :
    parse_command "lsp:hover (MCP)(line: \"10\")" =
        some ("hover", [("line", PyVal.int 10)]) ∧
      PyVal.int 10 ≠ PyVal.str "10" := by
  exact ⟨rfl, by simp⟩

/-- Witness for `decode_param_quoted_value` at key `uri` and quoted
content `abc`. -/
theorem decode_param_quoted_value_witness :
    decode_param "uri" "\"abc\"" = PyVal.str "abc" ∧
      parse_command "lsp:hover (MCP)(line: '10')" = Option.none :=
  decode_param_quoted_value "uri" "\"abc\"" "abc" (by decide) (by decide)
    (by decide) (by decide)

theorem strStarts_append_self (pre rest : List Char) :
    strStarts (pre ++ rest) pre = true := by
  induction pre with
  | nil => cases rest <;> rfl
  | cons c p ih => simp [strStarts, ih]

theorem isVarPlaceholder_of_shape (name : String) :
    isVarPlaceholder (listStr ("<VAR:".data ++ (name.data ++ ['>']))) = true := by
  unfold isVarPlaceholder
  rw [Bool.and_eq_true]
  refine ⟨strStarts_append_self _ _, ?_⟩
  show strEnds ("<VAR:".data ++ (name.data ++ ['>'])) ['>'] = true
  unfold strEnds
  rw [show ("<VAR:".data ++ (name.data ++ ['>'])).reverse =
      '>' :: (name.data.reverse ++ "<VAR:".data.reverse) by simp]
  simp [strStarts]

theorem varNameOf_of_shape (name : String) :
    varNameOf (listStr ("<VAR:".data ++ (name.data ++ ['>']))) = name := by
  show listStr ((("<VAR:".data ++ (name.data ++ ['>'])).drop 5).dropLast) = name
  rw [show (5 : Nat) = "<VAR:".data.length from rfl, List.drop_left]
  rw [show (name.data ++ ['>']).dropLast = name.data by simp]
  rfl

/-- C6 (amended): interpolating a mapping whose first value references
`$\x7blast_result\x7d` raises the no-previous-result error whenever the stored
`last_result` is falsy — in particular when no prior step has completed
(`None`); any other reference whose name is missing from the context's
variables raises the undefined-variable error; and when the stored
`last_result` is truthy (a prior step completed with a nonempty
payload), the reference is replaced by the structured value itself, not
by a string encoding.  (The claim's unconditional "when a prior step has
completed" is false for an empty payload, see the counterexample.) -/
theorem interpolate_last_result_resolution :
    (∀ (k : String) (rest : List (String × PyVal)) (ctx : CommandContext),
        ctx.last_result = PyVal.none →
        interpolate_variables ((k, PyVal.str "<VAR:last_result>") :: rest) ctx =
          .error (.noPreviousResult "last_result")) ∧
      (∀ (k name : String) (rest : List (String × PyVal)) (ctx : CommandContext),
        (name == "last_result") = false →
        dictFind ctx.vars name = Option.none →
        interpolate_variables
            ((k, PyVal.str (listStr ("<VAR:".data ++ (name.data ++ ['>'])))) :: rest) ctx =
          .error (.undefinedVariable name)) ∧
      (∀ (k : String) (ctx : CommandContext), pyTruthy ctx.last_result = true →
        interpolate_variables [(k, PyVal.str "<VAR:last_result>")] ctx =
          .ok [(k, ctx.last_result)]) := by
  refine ⟨?_, ?_, ?_⟩
  · intro k rest ctx h
    obtain ⟨lr, vs⟩ := ctx
    simp only at h
    subst h
    rfl
  · intro k name rest ctx hname hfind
    simp only [interpolate_variables, interpGo]
    rw [if_pos (isVarPlaceholder_of_shape name), varNameOf_of_shape name]
    simp [hname, hfind]
  · intro k ctx h
    simp only [interpolate_variables, interpGo]
    rw [if_pos (by rfl : isVarPlaceholder "<VAR:last_result>" = true)]
    rw [show varNameOf "<VAR:last_result>" = "last_result" from rfl]
    simp [h]
    rfl

/-- C6 (counterexample): a prior step HAS completed and stored the empty
mapping, yet resolving `$\x7blast_result\x7d` raises the no-previous-result
error — availability is decided by truthiness of the stored value, not
by completion of a prior step. -/
theorem interpolate_empty_last_result_raises :
    interpolate_variables [("line", PyVal.str "<VAR:last_result>")]
        { last_result := PyVal.dict [], vars := [] } =
      .error (.noPreviousResult "last_result") := rfl

/-- Witness for `interpolate_last_result_resolution`: the three
resolutions at concrete inputs. -/
theorem interpolate_last_result_resolution_witness :
    interpolate_variables [("a", PyVal.str "<VAR:last_result>")] {} =
        .error (.noPreviousResult "last_result") ∧
      interpolate_variables [("a", PyVal.str "<VAR:x>")] {} =
        .error (.undefinedVariable "x") ∧
      interpolate_variables [("a", PyVal.str "<VAR:last_result>")]
          { last_result := PyVal.dict [("line", PyVal.int 7)], vars := [] } =
        .ok [("a", PyVal.dict [("line", PyVal.int 7)])] :=
  ⟨interpolate_last_result_resolution.1 "a" [] {} rfl,
    interpolate_last_result_resolution.2.1 "a" "x" [] {} (by decide) rfl,
    interpolate_last_result_resolution.2.2 "a"
      { last_result := PyVal.dict [("line", PyVal.int 7)], vars := [] } rfl⟩

theorem dictInsert_append (acc : List (String × PyVal)) (k : String) (v : PyVal)
    (h : ∀ kv ∈ acc, (kv.1 == k) = false) :
    dictInsert acc k v = acc ++ [(k, v)] := by
  induction acc with
  | nil => rfl
  | cons kv rest ih =>
    obtain ⟨k', v'⟩ := kv
    have hk : (k' == k) = false := h (k', v') (List.mem_cons_self _ _)
    simp only [dictInsert, hk, List.cons_append]
    rw [ih fun kv hkv => h kv (List.mem_cons_of_mem _ hkv)]
    simp

theorem interpGo_passthrough (ctx : CommandContext) :
    ∀ (params acc : List (String × PyVal)),
      (∀ kv ∈ params, isVarRefValue kv.2 = false) →
      (∀ kv ∈ params, ∀ kv' ∈ acc, (kv'.1 == kv.1) = false) →
      (params.map Prod.fst).Nodup →
      interpGo ctx params acc = .ok (acc ++ params) := by
  intro params
  induction params with
  | nil => intro acc _ _ _; simp [interpGo]
  | cons kv rest ih =>
    intro acc href hdisj hnd
    obtain ⟨k, v⟩ := kv
    have hv : isVarRefValue v = false := href (k, v) (List.mem_cons_self _ _)
    have hins : dictInsert acc k v = acc ++ [(k, v)] :=
      dictInsert_append acc k v fun kv' hkv' => hdisj (k, v) (List.mem_cons_self _ _) kv' hkv'
    have hrest : ∀ kv ∈ rest, isVarRefValue kv.2 = false :=
      fun kv hkv => href kv (List.mem_cons_of_mem _ hkv)
    have hnd' : (rest.map Prod.fst).Nodup := by
      simpa using hnd.of_cons
    have hknot : ∀ kv ∈ rest, (k == kv.1) = false := by
      intro kv hkv
      have : k ∉ rest.map Prod.fst := by
        simp only [List.map_cons, List.nodup_cons] at hnd
        exact hnd.1
      have hne : k ≠ kv.1 := fun he => this (he ▸ List.mem_map_of_mem Prod.fst hkv)
      simp [hne]
    have hdisj' : ∀ kv ∈ rest, ∀ kv' ∈ acc ++ [(k, v)], (kv'.1 == kv.1) = false := by
      intro kv hkv kv' hkv'
      rcases List.mem_append.mp hkv' with hin | hin
      · exact hdisj kv (List.mem_cons_of_mem _ hkv) kv' hin
      · simp only [List.mem_singleton] at hin
        subst hin
        exact hknot kv hkv
    have step : interpGo ctx ((k, v) :: rest) acc = interpGo ctx rest (dictInsert acc k v) := by
      cases v with
      | str s =>
        have hph : isVarPlaceholder s = false := by simpa [isVarRefValue] using hv
        simp [interpGo, hph]
      | none => simp [interpGo]
      | bool b => simp [interpGo]
      | int n => simp [interpGo]
      | list xs => simp [interpGo]
      | dict kvs => simp [interpGo]
    rw [step, hins, ih (acc ++ [(k, v)]) hrest hdisj' hnd']
    simp

/-- C7 (amended): variable interpolation is a pure function returning a
new mapping (the embedding returns a value and leaves the context
untouched by construction); every top-level value that is not a
variable-reference placeholder passes through unchanged — but the
replacement is applied ONLY at the top level of the mapping: a
reference nested inside a list or mapping value is not replaced (the
source has no recursion), so such values pass through whole. -/
theorem interpolate_top_level_only (params : List (String × PyVal))
    (ctx : CommandContext)
    (hkeys : (params.map Prod.fst).Nodup)
    (href : ∀ kv ∈ params, isVarRefValue kv.2 = false) :
    interpolate_variables params ctx = .ok params := by
  have h := interpGo_passthrough ctx params []
    href (by intro kv _ kv' hkv'; cases hkv') hkeys
  simpa [interpolate_variables] using h

/-- C7 (counterexample): the same reference that is replaced at top
level survives untouched when nested inside a list value, even though
its name is resolvable — interpolation is not recursive. -/
theorem interpolate_nested_ref_not_replaced :
    interpolate_variables [("a", PyVal.list [PyVal.str "<VAR:x>"])]
        { last_result := PyVal.none, vars := [("x", PyVal.int 7)] } =
      .ok [("a", PyVal.list [PyVal.str "<VAR:x>"])] ∧
      interpolate_variables [("a", PyVal.str "<VAR:x>")]
          { last_result := PyVal.none, vars := [("x", PyVal.int 7)] } =
        .ok [("a", PyVal.int 7)] :=
  ⟨rfl, rfl⟩

/-- Witness for `interpolate_top_level_only`: a mapping with a plain
value and a nested-list value passes through unchanged. -/
theorem interpolate_top_level_only_witness :
    interpolate_variables
        [("a", PyVal.int 1), ("b", PyVal.list [PyVal.str "<VAR:x>"])] {} =
      .ok [("a", PyVal.int 1), ("b", PyVal.list [PyVal.str "<VAR:x>"])] :=
  interpolate_top_level_only _ {} (by decide) (by decide)

/-- C10 (confirmed): interpolation behaves identically whether
`last_result` holds Python `None` (no prior step) or the empty mapping
(a prior step completed with an empty payload): the code tests
truthiness, and both are falsy; in particular a `$\x7blast_result\x7d`
reference raises the no-previous-result error in both contexts. -/
theorem interpolate_truthiness_decides_availability :
    (∀ (params : List (String × PyVal)) (vs acc : List (String × PyVal)),
        interpGo { last_result := PyVal.dict [], vars := vs } params acc =
          interpGo { last_result := PyVal.none, vars := vs } params acc) ∧
      (∀ (k : String) (rest : List (String × PyVal)) (vs : List (String × PyVal)),
        interpolate_variables ((k, PyVal.str "<VAR:last_result>") :: rest)
            { last_result := PyVal.dict [], vars := vs } =
          .error (.noPreviousResult "last_result")) := by
  constructor
  · intro params vs
    induction params with
    | nil => intro acc; rfl
    | cons kv rest ih =>
      intro acc
      obtain ⟨k, v⟩ := kv
      cases v with
      | str s =>
        simp only [interpGo]
        by_cases hph : isVarPlaceholder s = true
        · rw [if_pos hph, if_pos hph]
          by_cases hlr : (varNameOf s == "last_result") = true
          · rw [if_pos hlr, if_pos hlr]
            simp [pyTruthy]
          · rw [if_neg hlr, if_neg hlr]
            cases dictFind vs (varNameOf s) with
            | none => rfl
            | some w => exact ih _
        · rw [if_neg hph, if_neg hph]
          exact ih _
      | none => exact ih _
      | bool b => exact ih _
      | int n => exact ih _
      | list xs => exact ih _
      | dict kvs => exact ih _
  · intro k rest vs
    rfl

/-- C3 (amended): for every step that completes (returns a result
rather than hanging), the context's caller-supplied variables are never
modified; `last_result` is overwritten with the step's response payload
ONLY when the step succeeds (the response carries no `error` key) — on
a reported tool error or transport failure the function returns before
the assignment, so the context is left entirely unchanged.  (The
claim's "overwritten even on a reported tool error" is false, see the
counterexample.) -/
theorem run_test_context_update (env : Env) (cmd : String)
    (ctx : CommandContext) (st : RunnerState) (r : PyVal)
    (ctx' : CommandContext) (st' : RunnerState)
    (h : run_test env cmd ctx st = some (r, ctx', st')) :
    ctx'.vars = ctx.vars ∧
      (resultSuccess r = false → ctx' = ctx) ∧
      (resultSuccess r = true → resultPayload r = some ctx'.last_result) := by
  unfold run_test at h
  split at h
  · simp only [Option.some.injEq, Prod.mk.injEq] at h
    obtain ⟨hA, hB, hC⟩ := h
    subst hA; subst hB; subst hC
    refine ⟨rfl, fun _ => rfl, fun ht => ?_⟩
    simp [resultSuccess, dictFind, pyTruthy] at ht
  · split at h
    · simp only [Option.some.injEq, Prod.mk.injEq] at h
      obtain ⟨hA, hB, hC⟩ := h
      subst hA; subst hB; subst hC
      refine ⟨rfl, fun _ => rfl, fun ht => ?_⟩
      simp [resultSuccess, dictFind, pyTruthy] at ht
    · split at h
      · simp only [Option.some.injEq, Prod.mk.injEq] at h
        obtain ⟨hA, hB, hC⟩ := h
        subst hA; subst hB; subst hC
        refine ⟨rfl, fun _ => rfl, fun ht => ?_⟩
        simp [resultSuccess, dictFind, pyTruthy] at ht
      · dsimp only at h
        split at h
        · exact Option.noConfusion h
        · split at h
          · simp only [Option.some.injEq, Prod.mk.injEq] at h
            obtain ⟨hA, hB, hC⟩ := h
            subst hA; subst hB; subst hC
            refine ⟨rfl, fun _ => rfl, fun ht => ?_⟩
            simp [resultSuccess, dictFind, pyTruthy] at ht
          · simp only [Option.some.injEq, Prod.mk.injEq] at h
            obtain ⟨hA, hB, hC⟩ := h
            subst hA; subst hB; subst hC
            refine ⟨rfl, fun _ => rfl, fun ht => ?_⟩
            simp [resultSuccess, dictFind, pyTruthy] at ht
          · simp only [Option.some.injEq, Prod.mk.injEq] at h
            obtain ⟨hA, hB, hC⟩ := h
            subst hA; subst hB; subst hC
            refine ⟨rfl, fun hf => ?_, fun _ => rfl⟩
            simp [resultSuccess, dictFind, pyTruthy] at hf

/-- C3 (counterexample): a step whose response is a reported tool error
(the payload `\x7b"error": "boom"\x7d`) completes without a transport error
and carries a payload, yet the context comes back with `last_result`
still `None` — `run_test` returns before the assignment whenever the
response has an `error` key. -/
theorem run_test_tool_error_keeps_last_result :
    run_test
        { startOk := true,
          respond := fun _ => .json (PyVal.dict [("error", PyVal.str "boom")]) }
        "lsp:hover (MCP)(line: 1)" {} {} =
      some (PyVal.dict [("success", PyVal.bool false),
          ("result", PyVal.dict [("error", PyVal.str "boom")])],
        { last_result := PyVal.none, vars := [] },
        { request_id := 2, serverUp := true }) := rfl

/-- Witness for `run_test_context_update` at a concrete successful
step. -/
theorem run_test_context_update_witness :
    ({ last_result := PyVal.dict [("result", PyVal.str "ok")], vars := [] } :
        CommandContext).vars = ({} : CommandContext).vars ∧
      (resultSuccess (PyVal.dict [("success", PyVal.bool true),
          ("result", PyVal.dict [("result", PyVal.str "ok")])]) = false →
        ({ last_result := PyVal.dict [("result", PyVal.str "ok")], vars := [] } :
          CommandContext) = {}) ∧
      (resultSuccess (PyVal.dict [("success", PyVal.bool true),
          ("result", PyVal.dict [("result", PyVal.str "ok")])]) = true →
        resultPayload (PyVal.dict [("success", PyVal.bool true),
            ("result", PyVal.dict [("result", PyVal.str "ok")])]) =
          some ({ last_result := PyVal.dict [("result", PyVal.str "ok")], vars := [] } :
            CommandContext).last_result) :=
  run_test_context_update
    { startOk := true,
      respond := fun _ => .json (PyVal.dict [("result", PyVal.str "ok")]) }
    "lsp:hover (MCP)(line: 1)" {} {}
    (PyVal.dict [("success", PyVal.bool true),
      ("result", PyVal.dict [("result", PyVal.str "ok")])])
    { last_result := PyVal.dict [("result", PyVal.str "ok")], vars := [] }
    { request_id := 2, serverUp := true } rfl

/-- C2 (confirmed): if, after a prefix `pre` of steps that all
succeeded, the next command's step fails (parse failure, interpolation
failure, transport failure or reported tool error — all of which yield
`success = False`), then the whole run over `pre ++ cmd :: post` equals
the run that stops right after the failing step: the commands in `post`
are never parsed or dispatched (the outcome, context and request-id
counter do not depend on `post`), and the result list has exactly
`pre.length + 1` entries, one per executed step in execution order. -/
theorem run_test_sequence_aborts_on_first_failure (env : Env)
    (pre : List String) (cmd : String) (post : List String)
    (ctx : CommandContext) (st : RunnerState)
    (rs : List PyVal) (ctx1 : CommandContext) (st1 : RunnerState)
    (r : PyVal) (ctx2 : CommandContext) (st2 : RunnerState)
    (hpre : run_test_sequence env pre ctx st = some (rs, ctx1, st1))
    (hall : ∀ x ∈ rs, resultSuccess x = true)
    (hstep : run_test env cmd ctx1 st1 = some (r, ctx2, st2))
    (hfail : resultSuccess r = false) :
    run_test_sequence env (pre ++ cmd :: post) ctx st =
        some (rs ++ [r], ctx2, st2) ∧
      (rs ++ [r]).length = pre.length + 1 := by
  induction pre generalizing ctx st rs with
  | nil =>
    simp only [run_test_sequence, Option.some.injEq, Prod.mk.injEq] at hpre
    obtain ⟨h1, h2, h3⟩ := hpre
    subst h1; subst h2; subst h3
    simp only [List.nil_append, run_test_sequence, hstep, hfail]
    simp
  | cons c pre' ih =>
    rw [show (c :: pre') ++ cmd :: post = c :: (pre' ++ cmd :: post) from rfl]
    simp only [run_test_sequence] at hpre ⊢
    cases hc : run_test env c ctx st with
    | none => rw [hc] at hpre; exact Option.noConfusion hpre
    | some v =>
      obtain ⟨r0, ctxa, sta⟩ := v
      rw [hc] at hpre
      simp only at hpre
      by_cases hsucc : resultSuccess r0 = true
      · rw [if_pos hsucc] at hpre
        cases hs : run_test_sequence env pre' ctxa sta with
        | none => rw [hs] at hpre; exact Option.noConfusion hpre
        | some w =>
          obtain ⟨rs', ctxb, stb⟩ := w
          rw [hs] at hpre
          simp only [Option.some.injEq, Prod.mk.injEq] at hpre
          obtain ⟨h1, h2, h3⟩ := hpre
          subst h2; subst h3
          subst h1
          have hall' : ∀ x ∈ rs', resultSuccess x = true :=
            fun x hx => hall x (List.mem_cons_of_mem _ hx)
          obtain ⟨ihe, ihl⟩ := ih ctxa sta rs' hs hall'
          dsimp only
          rw [if_pos hsucc, ihe]
          constructor
          · simp
          · simp only [List.length_append, List.length_cons] at ihl ⊢
            omega
      · rw [if_neg hsucc] at hpre
        simp only [Option.some.injEq, Prod.mk.injEq] at hpre
        obtain ⟨h1, h2, h3⟩ := hpre
        subst h2; subst h3
        have : resultSuccess r0 = true := by
          apply hall
          rw [← h1]
          exact List.mem_singleton_self _
        exact absurd this hsucc

/-- Witness for `run_test_sequence_aborts_on_first_failure`: a 3-step
sequence whose second step is a reported tool error — step 3 never
dispatches and the result list has exactly 2 entries. -/
theorem run_test_sequence_aborts_witness :
    run_test_sequence
        { startOk := true,
          respond := fun n =>
            if n == 2 then ServerRead.json (PyVal.dict [("error", PyVal.str "boom")])
            else ServerRead.json (PyVal.dict [("result", PyVal.int 1)]) }
        (["lsp:a (MCP)(x: 1)"] ++ "lsp:b (MCP)(x: 2)" :: ["lsp:c (MCP)(x: 3)"]) {} {} =
        some ([PyVal.dict [("success", PyVal.bool true),
              ("result", PyVal.dict [("result", PyVal.int 1)])]] ++
            [PyVal.dict [("success", PyVal.bool false),
              ("result", PyVal.dict [("error", PyVal.str "boom")])]],
          { last_result := PyVal.dict [("result", PyVal.int 1)], vars := [] },
          { request_id := 3, serverUp := true }) ∧
      ([PyVal.dict [("success", PyVal.bool true),
            ("result", PyVal.dict [("result", PyVal.int 1)])]] ++
          [PyVal.dict [("success", PyVal.bool false),
            ("result", PyVal.dict [("error", PyVal.str "boom")])]]).length =
        ["lsp:a (MCP)(x: 1)"].length + 1 :=
  run_test_sequence_aborts_on_first_failure
    { startOk := true,
      respond := fun n =>
        if n == 2 then ServerRead.json (PyVal.dict [("error", PyVal.str "boom")])
        else ServerRead.json (PyVal.dict [("result", PyVal.int 1)]) }
    ["lsp:a (MCP)(x: 1)"] "lsp:b (MCP)(x: 2)" ["lsp:c (MCP)(x: 3)"] {} {}
    [PyVal.dict [("success", PyVal.bool true),
      ("result", PyVal.dict [("result", PyVal.int 1)])]]
    { last_result := PyVal.dict [("result", PyVal.int 1)], vars := [] }
    { request_id := 2, serverUp := true }
    (PyVal.dict [("success", PyVal.bool false),
      ("result", PyVal.dict [("error", PyVal.str "boom")])])
    { last_result := PyVal.dict [("result", PyVal.int 1)], vars := [] }
    { request_id := 3, serverUp := true }
    rfl
    (by intro x hx; rw [List.mem_singleton] at hx; subst hx; rfl)
    rfl rfl

theorem sessionIds_eq_range' :
    ∀ (reads : List ServerRead) (s : Nat),
      sessionIds reads s = List.range' s reads.length := by
  intro reads
  induction reads with
  | nil => intro s; rfl
  | cons r rest ih =>
    intro s
    simp only [sessionIds, List.length_cons, List.range'_succ]
    rw [show (sendRequestMCP r true true "tools/call" (PyVal.dict []) s).2.2 = s + 1
      from rfl]
    rw [ih (s + 1)]

/-- C4 (amended): in the `mcp_external_test.py` client, the request
envelope built by `_send_request` carries the current counter as its
`id` and the counter advances by exactly one per dispatched request, so
over one session (counter starting at 1) the ids form exactly
`1, 2, ..., n` — strictly increasing, no gaps, no repeats, never reset.
The `test_mcp_tools.py` client does NOT follow this scheme: it assigns
each request a fresh `str(uuid.uuid4())` string id (see the
counterexample). -/
theorem client_request_ids_sequential :
    (∀ (read : ServerRead) (up ok : Bool) (m : String) (p : PyVal) (rid : Nat),
        envelopeId (sendRequestMCP read up ok m p rid).1 = some (PyVal.int rid) ∧
          (sendRequestMCP read up ok m p rid).2.2 = rid + 1) ∧
      (∀ reads : List ServerRead,
        sessionIds reads 1 = List.range' 1 reads.length ∧
          List.Pairwise (· < ·) (sessionIds reads 1) ∧
          (sessionIds reads 1).Nodup) := by
  constructor
  · intro read up ok m p rid
    exact ⟨rfl, rfl⟩
  · intro reads
    rw [sessionIds_eq_range']
    exact ⟨rfl, List.pairwise_lt_range' .., List.nodup_range' ..⟩

/-- C4 (counterexample): the request built by `run_mcp_tool` of
`test_mcp_tools.py` — one of the protocol-client variants the claim
covers — has a UUID string id, not the integer 1 that an exact
`1, 2, 3, ...` id sequence would require for the session's first
request. -/
theorem run_mcp_tool_id_not_integer :
    envelopeId (run_mcp_tool_request "3fa85f64-5717-4562-b3fc-2c963f66afa6"
        "hover" (PyVal.dict [])) =
      some (PyVal.str "3fa85f64-5717-4562-b3fc-2c963f66afa6") ∧
      envelopeId (run_mcp_tool_request "3fa85f64-5717-4562-b3fc-2c963f66afa6"
          "hover" (PyVal.dict [])) ≠
        some (PyVal.int 1) := by
  refine ⟨rfl, fun h => ?_⟩
  rw [show envelopeId (run_mcp_tool_request "3fa85f64-5717-4562-b3fc-2c963f66afa6"
      "hover" (PyVal.dict [])) =
    some (PyVal.str "3fa85f64-5717-4562-b3fc-2c963f66afa6") from rfl] at h
  simp at h

/-- C8 (amended): the `test_mcp_external.py` client's round trip uses a
bounded poll-then-read (`select` with a 10-second timeout), so against
a server that never writes a response it returns a failed `TestResult`
carrying exactly the timeout message — no exception escapes, the id
counter still advances, and the run proceeds to its normal teardown.
The `mcp_external_test.py` client instead uses an unbounded blocking
`readline`, which never returns on a silent server (see the
counterexample), so the claim does not hold of every round trip. -/
theorem send_request_ext_times_out (read : ServerRead)
    (m : String) (p : PyVal) (rid : Nat) (hread : read = ServerRead.silent) :
    send_request_ext true read m p rid =
      (PyVal.dict [("jsonrpc", PyVal.str "2.0"), ("id", PyVal.int rid),
        ("method", PyVal.str m), ("params", p)],
       { success := false,
         error := some "Request timed out - no response received",
         response := Option.none },
       rid + 1) := by
  subst hread
  rfl

/-- C8 (counterexample): the `_send_request` round trip of
`mcp_external_test.py` against a silent server has no read outcome at
all — the blocking `readline` hangs instead of failing with
`RequestTimeout` after a bounded wait. -/
theorem send_request_mcp_blocking_hangs :
    (sendRequestMCP ServerRead.silent true true "tools/call"
        (PyVal.dict []) 1).2.1 = Option.none := rfl

/-- Witness for `send_request_ext_times_out` at a concrete round
trip. -/
theorem send_request_ext_times_out_witness :
    send_request_ext true ServerRead.silent "tools/list" (PyVal.dict []) 1 =
      (PyVal.dict [("jsonrpc", PyVal.str "2.0"), ("id", PyVal.int 1),
        ("method", PyVal.str "tools/list"), ("params", PyVal.dict [])],
       { success := false,
         error := some "Request timed out - no response received",
         response := Option.none },
       2) :=
  send_request_ext_times_out ServerRead.silent "tools/list" (PyVal.dict []) 1 rfl

end MCPBridge
